import Mathlib

/-!
Verification of the attendance decision and deduplication core of the
Face-Recognition-Attendance-System repository, together with the marking
page of its React frontend.

The repository snapshot contains the React frontend (the callers of the
attendance API) and backend documentation, but not the Django view code of
the attendance core itself.  Definitions for the core are therefore modelled
from the specification text (each such definition's doc comment starts with
`Modelled from the spec:`); the frontend definitions are shallow embeddings
of the JavaScript in `frontend/src/pages/MarkAttendance.js`.
-/

namespace FaceAttendance

/-- Modelled from the spec: status of a committed attendance record,
`status ∈ {present, late}`; absence is never materialized as a record. -/
inductive Status
  | present
  | late
deriving DecidableEq, Repr

/-- Modelled from the spec: marking method, `method ∈ {face, manual}`. -/
inductive Method
  | face
  | manual
deriving DecidableEq, Repr

/-- Modelled from the spec: rejection reasons produced by the Decision
Engine, `VerificationFailed` carrying the exact matcher confidence. -/
inductive RejectReason
  | verificationFailed (confidence : ℚ)
  | outsideWindow
deriving DecidableEq, Repr

/-- Modelled from the spec: Decision Engine outcome — an accepted status
(present or late) or a rejection. -/
inductive Outcome
  | accepted (s : Status)
  | rejected (r : RejectReason)
deriving DecidableEq, Repr

/-- Whether an outcome is an acceptance (present or late). -/
def Outcome.isAccepted : Outcome → Bool
  | .accepted _ => true
  | .rejected _ => false

/-- Modelled from the spec: the per-session window configuration — session
start, session end and grace-period duration, in abstract time units. -/
structure SessionWindow where
  startT : ℕ
  endT : ℕ
  grace : ℕ
deriving DecidableEq, Repr

/-- Modelled from the spec: the time evaluation shared by the face and
manual paths.  Arrival at or before `start + grace` is present (inclusive
boundary); after that but at or before session end is late (inclusive);
after session end is rejected with reason OutsideWindow. -/
def timeEval (w : SessionWindow) (arrival : ℕ) : Outcome :=
  if arrival ≤ w.startT + w.grace then .accepted .present
  else if arrival ≤ w.endT then .accepted .late
  else .rejected (.outsideWindow)

/-- Modelled from the spec: face-path decision.  If the matcher confidence
is strictly below the configured threshold the outcome is
Rejected(VerificationFailed, confidence); otherwise time evaluation runs. -/
def decideFace (threshold confidence : ℚ) (w : SessionWindow) (arrival : ℕ) : Outcome :=
  if confidence < threshold then .rejected (.verificationFailed confidence)
  else timeEval w arrival

/-- Modelled from the spec: manual-path decision — the same time
evaluation, with no confidence check. -/
def decideManual (w : SessionWindow) (arrival : ℕ) : Outcome :=
  timeEval w arrival

/-- Modelled from the spec: the dedup key (student, date, session). -/
structure DedupKey where
  student : ℕ
  date : ℕ
  session : String
deriving DecidableEq, Repr

/-- Modelled from the spec: one committed attendance event; confidence is
present only for method = face. -/
structure AttendanceRecord where
  key : DedupKey
  status : Status
  method : Method
  confidence : Option ℚ
  arrival : ℕ
deriving DecidableEq, Repr

/-- Modelled from the spec: the Attendance Ledger's durable store of
committed records. -/
abbrev Ledger := List AttendanceRecord

/-- Modelled from the spec: the Ledger's pure read `findByKey`. -/
def findByKey : Ledger → DedupKey → Option AttendanceRecord
  | [], _ => none
  | r :: rs, k => if r.key = k then some r else findByKey rs k

/-- Number of records held for a given dedup key. -/
def countKey (L : Ledger) (k : DedupKey) : ℕ :=
  L.countP (fun r => decide (r.key = k))

/-- Modelled from the spec: result of the Ledger's atomic primitive. -/
inductive CommitResult
  | committed
  | conflict
deriving DecidableEq, Repr

/-- Modelled from the spec: the Ledger's atomic check-and-insert
`commitIfAbsent` — inserts the record only if no record exists for its key,
otherwise reports a conflict and leaves the store untouched. -/
def commitIfAbsent (L : Ledger) (r : AttendanceRecord) : Ledger × CommitResult :=
  match findByKey L r.key with
  | some _ => (L, .conflict)
  | none => (r :: L, .committed)

/-- Modelled from the spec: the typed error taxonomy returned to callers of
`markByFace` / `markManual`. -/
inductive MarkError
  | notEnrolled
  | matcherUnavailable
  | verificationFailed (confidence : ℚ)
  | outsideWindow
  | alreadyMarked
deriving DecidableEq, Repr

/-- Maps a Decision Engine rejection reason to the corresponding error. -/
def rejectErr : RejectReason → MarkError
  | .verificationFailed c => .verificationFailed c
  | .outsideWindow => .outsideWindow

/-- Modelled from the spec: the outcome recorded in an audit entry. -/
inductive AuditOutcome
  | committedOk
  | duplicate
  | rejectedAttempt (r : RejectReason)
  | matcherFailed
  | notEnrolledAttempt
deriving DecidableEq, Repr

/-- Modelled from the spec: an append-only audit record of one attempt. -/
structure AuditEntry where
  key : DedupKey
  method : Method
  outcome : AuditOutcome
  confidence : Option ℚ
deriving DecidableEq, Repr

/-- Modelled from the spec: the shared mutable state — the Ledger (sole
owner of attendance records) and the append-only audit log. -/
structure SysState where
  ledger : Ledger
  audit : List AuditEntry
deriving DecidableEq, Repr

/-- Modelled from the spec: the immutable configuration snapshot of a
request — confidence threshold, session window, and the (date, session)
the marking targets. -/
structure Config where
  threshold : ℚ
  window : SessionWindow
  date : ℕ
  session : String
deriving DecidableEq, Repr

/-- Modelled from the spec: the Audit Logger sink.  `auditOk = false`
models a failing audit write: the entry is lost but the caller's primary
operation is unaffected. -/
def writeAudit (auditOk : Bool) (st : SysState) (e : AuditEntry) : SysState :=
  if auditOk then { st with audit := e :: st.audit } else st

/-- Result of one marking call: new state, the typed result returned to
the caller, whether the Face Matcher was invoked, and the audit entries
the call emitted (sent to the Audit Logger). -/
structure MarkOutput where
  state : SysState
  result : Except MarkError AttendanceRecord
  matcherInvoked : Bool
  emitted : List AuditEntry
deriving Repr

/-- Modelled from the spec: the commit step shared by both paths — the
Ledger's atomic commit-if-absent followed by the audit emission. -/
def commitPhase (auditOk : Bool) (st : SysState) (matched : Bool)
    (key : DedupKey) (s : Status) (m : Method) (conf : Option ℚ)
    (arrival : ℕ) : MarkOutput :=
  match commitIfAbsent st.ledger ⟨key, s, m, conf, arrival⟩ with
  | (L2, .committed) =>
      { state := writeAudit auditOk { st with ledger := L2 } ⟨key, m, .committedOk, conf⟩,
        result := .ok ⟨key, s, m, conf, arrival⟩, matcherInvoked := matched,
        emitted := [⟨key, m, .committedOk, conf⟩] }
  | (L2, .conflict) =>
      { state := writeAudit auditOk { st with ledger := L2 } ⟨key, m, .duplicate, conf⟩,
        result := .error .alreadyMarked, matcherInvoked := matched,
        emitted := [⟨key, m, .duplicate, conf⟩] }

/-- Modelled from the spec: the Verification Gateway's `markByFace`.
`profiles` is the set of students holding a StudentFaceProfile; `matcher`
is the Face Matcher Client's answer for this request (`none` models a
timeout or matcher-internal failure).  The profile check runs first and a
missing profile fails with NotEnrolled without invoking the matcher; then
the Decision Engine runs; a rejection emits an audit entry and returns the
corresponding error with no Ledger write; an acceptance runs the atomic
commit-if-absent.  Exactly one audit entry is emitted on every path. -/
def markByFace (cfg : Config) (profiles : List ℕ) (auditOk : Bool)
    (st : SysState) (student : ℕ) (matcher : Option ℚ) (arrival : ℕ) :
    MarkOutput :=
  if student ∈ profiles then
    match matcher with
    | none =>
        { state := writeAudit auditOk st
            ⟨⟨student, cfg.date, cfg.session⟩, .face, .matcherFailed, none⟩,
          result := .error .matcherUnavailable,
          matcherInvoked := true,
          emitted := [⟨⟨student, cfg.date, cfg.session⟩, .face, .matcherFailed, none⟩] }
    | some confidence =>
        match decideFace cfg.threshold confidence cfg.window arrival with
        | .rejected r =>
            { state := writeAudit auditOk st
                ⟨⟨student, cfg.date, cfg.session⟩, .face, .rejectedAttempt r, some confidence⟩,
              result := .error (rejectErr r),
              matcherInvoked := true,
              emitted := [⟨⟨student, cfg.date, cfg.session⟩, .face, .rejectedAttempt r, some confidence⟩] }
        | .accepted s =>
            commitPhase auditOk st true ⟨student, cfg.date, cfg.session⟩ s .face
              (some confidence) arrival
  else
    { state := writeAudit auditOk st
        ⟨⟨student, cfg.date, cfg.session⟩, .face, .notEnrolledAttempt, none⟩,
      result := .error .notEnrolled,
      matcherInvoked := false,
      emitted := [⟨⟨student, cfg.date, cfg.session⟩, .face, .notEnrolledAttempt, none⟩] }

/-- Modelled from the spec: the Manual Fallback Handler's `markManual` —
bypasses the matcher entirely, runs the Decision Engine in manual mode and
then the identical Ledger commit-if-absent; the committed record carries
method = manual and no confidence. -/
def markManual (cfg : Config) (auditOk : Bool) (st : SysState)
    (student : ℕ) (arrival : ℕ) : MarkOutput :=
  match decideManual cfg.window arrival with
  | .rejected r =>
      { state := writeAudit auditOk st
          ⟨⟨student, cfg.date, cfg.session⟩, .manual, .rejectedAttempt r, none⟩,
        result := .error (rejectErr r),
        matcherInvoked := false,
        emitted := [⟨⟨student, cfg.date, cfg.session⟩, .manual, .rejectedAttempt r, none⟩] }
  | .accepted s =>
      commitPhase auditOk st false ⟨student, cfg.date, cfg.session⟩ s .manual none arrival

/-- A marking call of either kind; for a face call, `confidence` is the
answer the matcher returns for it. -/
inductive Call
  | face (student : ℕ) (confidence : ℚ) (arrival : ℕ)
  | manual (student : ℕ) (arrival : ℕ)
deriving DecidableEq, Repr

/-- The student a call targets. -/
def Call.student : Call → ℕ
  | .face s _ _ => s
  | .manual s _ => s

/-- Runs one call against the state. -/
def runCall (cfg : Config) (profiles : List ℕ) (auditOk : Bool)
    (st : SysState) : Call → MarkOutput
  | .face s c a => markByFace cfg profiles auditOk st s (some c) a
  | .manual s a => markManual cfg auditOk st s a

/-- Modelled from the spec: any interleaving of N concurrent marking calls
is, by atomicity of the Ledger's commit-if-absent, equivalent to running
the calls in some serialization order; `runCalls` runs one such order and
collects each call's result. -/
def runCalls (cfg : Config) (profiles : List ℕ) (auditOk : Bool)
    (st : SysState) :
    List Call → SysState × List (Except MarkError AttendanceRecord)
  | [] => (st, [])
  | c :: cs =>
      let o := runCall cfg profiles auditOk st c
      let rest := runCalls cfg profiles auditOk o.state cs
      (rest.1, o.result :: rest.2)

/-- Whether a call would pass the preconditions and the Decision Engine of
its path, so that it reaches the commit step of the Ledger. -/
def wouldCommit (cfg : Config) (profiles : List ℕ) : Call → Bool
  | .face s c a => decide (s ∈ profiles) &&
      (decideFace cfg.threshold c cfg.window a).isAccepted
  | .manual _ a => (decideManual cfg.window a).isAccepted

/-- Whether a marking result is a successful commit. -/
def isOkRes : Except MarkError AttendanceRecord → Bool
  | .ok _ => true
  | .error _ => false

instance : DecidableEq (Except MarkError AttendanceRecord) := fun a b =>
  match a, b with
  | .ok x, .ok y =>
      if h : x = y then .isTrue (by rw [h]) else .isFalse (by simp [h])
  | .ok _, .error _ => .isFalse (by simp)
  | .error _, .ok _ => .isFalse (by simp)
  | .error e, .error f =>
      if h : e = f then .isTrue (by rw [h]) else .isFalse (by simp [h])

/-- Modelled from the spec: the input of one Decision Engine invocation —
face mode carries the configured threshold and the matcher confidence,
both modes carry the session window and the arrival time. -/
inductive DecisionInput
  | face (threshold confidence : ℚ) (w : SessionWindow) (arrival : ℕ)
  | manual (w : SessionWindow) (arrival : ℕ)
deriving DecidableEq, Repr

/-- The Decision Engine on either mode. -/
def decisionEngine : DecisionInput → Outcome
  | .face t c w a => decideFace t c w a
  | .manual w a => decideManual w a

/-- Modelled from the spec: the Decision Engine viewed as a component
invoked against the ambient system state, returning its outcome and the
state it leaves behind; the spec requires it to be a pure, deterministic
function of its inputs that mutates nothing. -/
def decisionEngineSt (st : SysState) (i : DecisionInput) : Outcome × SysState :=
  (decisionEngine i, st)

/-- The MarkAttendance page's session value: `useState('daily')` with no
setter, fixed to the daily session (frontend `MarkAttendance.js`). -/
def markAttendanceSession : String := "daily"

/-- Shape of the payload the frontend sends to the manual-marking API. -/
structure ManualMarkRequest where
  session : String
  status : String
deriving DecidableEq, Repr

/-- Embeds `markManualAttendance` of the MarkAttendance page: the request
payload it builds for `apiService.markAttendanceManual` is
`{session, status: 'present'}`.  The current time `now` is displayed
elsewhere on the page but never consulted when building the payload. -/
def markManualRequest (_now : ℕ) : ManualMarkRequest :=
  { session := markAttendanceSession, status := "present" }

/-- Shape of the `error.response.data` object inspected by the catch
handler of `captureAndMarkAttendance`; a field is `none` when absent from
the response body. -/
structure ErrorData where
  non_field_errors : Option (List String)
  face_image_data : Option (List String)
  message : Option String
deriving DecidableEq, Repr

/-- JavaScript truthiness of an optional array-valued field, as tested by
`error.response?.data?.non_field_errors`: a present array is truthy even
when empty. -/
def truthyArr : Option (List String) → Bool
  | some _ => true
  | none => false

/-- JavaScript truthiness of an optional string-valued field, as tested by
`error.response?.data?.message`: present and non-empty. -/
def truthyStr : Option String → Bool
  | some s => !(s == "")
  | none => false

/-- JavaScript's `String.prototype.includes` substring test: `sub` occurs
contiguously inside `s`. -/
def jsIncludes (s sub : String) : Bool :=
  decide (sub.toList <:+: s.toList)

/-- Embeds the catch handler of `captureAndMarkAttendance` (MarkAttendance
page): whether the handler enables the manual fallback, i.e. reaches
`setShowManualOption(true)`, for a given error response body (`none`
models `error.response?.data` being absent).  Branch order and JS
truthiness follow the source; when `non_field_errors` is a present empty
array the source throws on `undefined.includes` before reaching
`setShowManualOption`, so the fallback is likewise not enabled, modelled
here as the substring test on the empty string. -/
def showsManualFallback : Option ErrorData → Bool
  | none => true
  | some d =>
    if truthyArr d.non_field_errors then
      jsIncludes ((d.non_field_errors.getD []).headD ("")) ("Face recognition failed") ||
        jsIncludes ((d.non_field_errors.getD []).headD ("")) ("Face recognition is not available")
    else if truthyArr d.face_image_data then false
    else if truthyStr d.message then false
    else true

/-- Stated from the claim's words, for comparison with
`showsManualFallback`: the fallback is enabled exactly when the first
`non_field_errors` message contains one of the two phrases, or when the
response carries none of the fields `non_field_errors`, `face_image_data`,
`message`. -/
def claimFallbackC10 : Option ErrorData → Bool
  | none => true
  | some d =>
    match d.non_field_errors with
    | some msgs =>
        jsIncludes (msgs.headD ("")) ("Face recognition failed") ||
          jsIncludes (msgs.headD ("")) ("Face recognition is not available")
    | none =>
        match d.face_image_data, d.message with
        | none, none => true
        | _, _ => false

/-- The claim amended to the code's JS-truthiness test on `message`: the
fallback is also enabled when `message` is present but the empty string. -/
def claimFallbackC10Amended : Option ErrorData → Bool
  | none => true
  | some d =>
    match d.non_field_errors with
    | some msgs =>
        jsIncludes (msgs.headD ("")) ("Face recognition failed") ||
          jsIncludes (msgs.headD ("")) ("Face recognition is not available")
    | none =>
        match d.face_image_data with
        | some _ => false
        | none =>
            match d.message with
            | none => true
            | some s => s == ""

lemma writeAudit_ledger (auditOk : Bool) (st : SysState) (e : AuditEntry) :
    (writeAudit auditOk st e).ledger = st.ledger := by
  cases auditOk <;> rfl

lemma isAccepted_iff (o : Outcome) :
    o.isAccepted = true ↔ ∃ s, o = .accepted s := by
  cases o <;> simp [Outcome.isAccepted]

lemma countKey_cons (r : AttendanceRecord) (L : Ledger) (k : DedupKey) :
    countKey (r :: L) k = countKey L k + (if r.key = k then 1 else 0) := by
  by_cases h : r.key = k <;> simp [countKey, List.countP_cons, h]

lemma findByKey_eq_none_iff (L : Ledger) (k : DedupKey) :
    findByKey L k = none ↔ countKey L k = 0 := by
  induction L with
  | nil => simp [findByKey, countKey]
  | cons r rs ih =>
      by_cases h : r.key = k
      · simp [findByKey, h, countKey_cons]
      · simpa [findByKey, h, countKey_cons] using ih

lemma commitPhase_absent (auditOk : Bool) (st : SysState) (matched : Bool)
    (key : DedupKey) (s : Status) (m : Method) (conf : Option ℚ) (arrival : ℕ)
    (h : findByKey st.ledger key = none) :
    (commitPhase auditOk st matched key s m conf arrival).result
        = .ok ⟨key, s, m, conf, arrival⟩ ∧
    (commitPhase auditOk st matched key s m conf arrival).state.ledger
        = (⟨key, s, m, conf, arrival⟩ : AttendanceRecord) :: st.ledger := by
  simp [commitPhase, commitIfAbsent, h, writeAudit_ledger]

lemma commitPhase_present (auditOk : Bool) (st : SysState) (matched : Bool)
    (key : DedupKey) (s : Status) (m : Method) (conf : Option ℚ) (arrival : ℕ)
    (r0 : AttendanceRecord) (h : findByKey st.ledger key = some r0) :
    (commitPhase auditOk st matched key s m conf arrival).result
        = .error .alreadyMarked ∧
    (commitPhase auditOk st matched key s m conf arrival).state.ledger
        = st.ledger := by
  simp [commitPhase, commitIfAbsent, h, writeAudit_ledger]

lemma commitPhase_ledger_cases (auditOk : Bool) (st : SysState) (matched : Bool)
    (key : DedupKey) (s : Status) (m : Method) (conf : Option ℚ) (arrival : ℕ) :
    (commitPhase auditOk st matched key s m conf arrival).state.ledger = st.ledger ∨
    ((commitPhase auditOk st matched key s m conf arrival).state.ledger
        = (⟨key, s, m, conf, arrival⟩ : AttendanceRecord) :: st.ledger ∧
      findByKey st.ledger key = none) := by
  cases hf : findByKey st.ledger key with
  | none =>
      exact Or.inr ⟨(commitPhase_absent auditOk st matched key s m conf arrival hf).2, rfl⟩
  | some r0 =>
      exact Or.inl (commitPhase_present auditOk st matched key s m conf arrival r0 hf).2

lemma runCall_commit (cfg : Config) (profiles : List ℕ) (auditOk : Bool)
    (st : SysState) (c : Call)
    (hc : wouldCommit cfg profiles c = true)
    (h : findByKey st.ledger ⟨c.student, cfg.date, cfg.session⟩ = none) :
    isOkRes (runCall cfg profiles auditOk st c).result = true ∧
    ∃ r : AttendanceRecord,
      (runCall cfg profiles auditOk st c).state.ledger = r :: st.ledger ∧
      r.key = ⟨c.student, cfg.date, cfg.session⟩ := by
  cases c with
  | face s conf a =>
      simp only [wouldCommit, Bool.and_eq_true, decide_eq_true_eq] at hc
      obtain ⟨hmem, hacc⟩ := hc
      obtain ⟨stat, hstat⟩ := (isAccepted_iff _).1 hacc
      simp only [Call.student] at h
      have hcp := commitPhase_absent auditOk st true ⟨s, cfg.date, cfg.session⟩
        stat .face (some conf) a h
      simp only [runCall, markByFace, if_pos hmem, hstat]
      exact ⟨by simp [hcp.1, isOkRes], ⟨_, hcp.2, rfl⟩⟩
  | manual s a =>
      simp only [wouldCommit] at hc
      obtain ⟨stat, hstat⟩ := (isAccepted_iff _).1 hc
      simp only [Call.student] at h
      have hcp := commitPhase_absent auditOk st false ⟨s, cfg.date, cfg.session⟩
        stat .manual none a h
      simp only [runCall, markManual, hstat]
      exact ⟨by simp [hcp.1, isOkRes], ⟨_, hcp.2, rfl⟩⟩

lemma runCall_conflict (cfg : Config) (profiles : List ℕ) (auditOk : Bool)
    (st : SysState) (c : Call) (r0 : AttendanceRecord)
    (hc : wouldCommit cfg profiles c = true)
    (h : findByKey st.ledger ⟨c.student, cfg.date, cfg.session⟩ = some r0) :
    (runCall cfg profiles auditOk st c).result = .error .alreadyMarked ∧
    (runCall cfg profiles auditOk st c).state.ledger = st.ledger := by
  cases c with
  | face s conf a =>
      simp only [wouldCommit, Bool.and_eq_true, decide_eq_true_eq] at hc
      obtain ⟨hmem, hacc⟩ := hc
      obtain ⟨stat, hstat⟩ := (isAccepted_iff _).1 hacc
      simp only [Call.student] at h
      have hcp := commitPhase_present auditOk st true ⟨s, cfg.date, cfg.session⟩
        stat .face (some conf) a r0 h
      simp only [runCall, markByFace, if_pos hmem, hstat]
      exact ⟨hcp.1, hcp.2⟩
  | manual s a =>
      simp only [wouldCommit] at hc
      obtain ⟨stat, hstat⟩ := (isAccepted_iff _).1 hc
      simp only [Call.student] at h
      have hcp := commitPhase_present auditOk st false ⟨s, cfg.date, cfg.session⟩
        stat .manual none a r0 h
      simp only [runCall, markManual, hstat]
      exact ⟨hcp.1, hcp.2⟩

lemma runCalls_all_conflict (cfg : Config) (profiles : List ℕ) (auditOk : Bool)
    (s : ℕ) (calls : List Call) (r0 : AttendanceRecord) :
    ∀ st : SysState, (∀ c ∈ calls, Call.student c = s) →
    (∀ c ∈ calls, wouldCommit cfg profiles c = true) →
    findByKey st.ledger ⟨s, cfg.date, cfg.session⟩ = some r0 →
    (runCalls cfg profiles auditOk st calls).1.ledger = st.ledger ∧
    ∀ r ∈ (runCalls cfg profiles auditOk st calls).2,
      r = .error .alreadyMarked := by
  induction calls with
  | nil => intro st _ _ _; simp [runCalls]
  | cons c cs ih =>
      intro st htarget hcommit h
      have hcs : Call.student c = s := htarget c (by simp)
      have hrc := runCall_conflict cfg profiles auditOk st c r0
        (hcommit c (by simp)) (by rw [hcs]; exact h)
      have hnext := ih (runCall cfg profiles auditOk st c).state
        (fun x hx => htarget x (by simp [hx]))
        (fun x hx => hcommit x (by simp [hx]))
        (by rw [hrc.2]; exact h)
      simp only [runCalls]
      refine ⟨by rw [hnext.1, hrc.2], ?_⟩
      intro r hr
      rcases List.mem_cons.1 hr with hr | hr
      · rw [hr, hrc.1]
      · exact hnext.2 r hr

lemma runCall_ledger_cases (cfg : Config) (profiles : List ℕ) (auditOk : Bool)
    (st : SysState) (c : Call) :
    (runCall cfg profiles auditOk st c).state.ledger = st.ledger ∨
    ∃ r : AttendanceRecord,
      (runCall cfg profiles auditOk st c).state.ledger = r :: st.ledger ∧
      findByKey st.ledger r.key = none := by
  cases c with
  | face s conf a =>
      simp only [runCall, markByFace]
      by_cases hmem : s ∈ profiles
      · rw [if_pos hmem]
        cases hd : decideFace cfg.threshold conf cfg.window a with
        | rejected r => exact Or.inl (writeAudit_ledger _ _ _)
        | accepted stat =>
            rcases commitPhase_ledger_cases auditOk st true ⟨s, cfg.date, cfg.session⟩
                stat .face (some conf) a with h | ⟨h1, h2⟩
            · exact Or.inl h
            · exact Or.inr ⟨_, h1, h2⟩
      · rw [if_neg hmem]
        exact Or.inl (writeAudit_ledger _ _ _)
  | manual s a =>
      simp only [runCall, markManual]
      cases hd : decideManual cfg.window a with
      | rejected r => exact Or.inl (writeAudit_ledger _ _ _)
      | accepted stat =>
          rcases commitPhase_ledger_cases auditOk st false ⟨s, cfg.date, cfg.session⟩
              stat .manual none a with h | ⟨h1, h2⟩
          · exact Or.inl h
          · exact Or.inr ⟨_, h1, h2⟩

lemma countKey_runCall (cfg : Config) (profiles : List ℕ) (auditOk : Bool)
    (st : SysState) (c : Call) (k : DedupKey) :
    countKey (runCall cfg profiles auditOk st c).state.ledger k
        ≤ max (countKey st.ledger k) 1 ∧
    countKey st.ledger k
        ≤ countKey (runCall cfg profiles auditOk st c).state.ledger k := by
  rcases runCall_ledger_cases cfg profiles auditOk st c with h | ⟨r, h1, h2⟩
  · rw [h]
    exact ⟨le_max_left _ _, le_refl _⟩
  · rw [h1, countKey_cons]
    by_cases hk : r.key = k
    · have h0 : countKey st.ledger k = 0 := by
        rw [← hk]
        exact (findByKey_eq_none_iff _ _).1 h2
      simp [hk, h0]
    · simp [hk]

lemma countKey_runCalls_one (cfg : Config) (profiles : List ℕ) (auditOk : Bool)
    (calls : List Call) (k : DedupKey) :
    ∀ st : SysState, countKey st.ledger k = 1 →
      countKey (runCalls cfg profiles auditOk st calls).1.ledger k = 1 := by
  induction calls with
  | nil =>
      intro st h
      simpa [runCalls] using h
  | cons c cs ih =>
      intro st h
      have hc := countKey_runCall cfg profiles auditOk st c k
      have h1 : countKey (runCall cfg profiles auditOk st c).state.ledger k = 1 := by
        rcases hc with ⟨hle, hge⟩
        rw [h] at hle hge
        omega
      simp only [runCalls]
      exact ih _ h1

lemma timeEval_rejected_eq (w : SessionWindow) (a : ℕ) (r : RejectReason)
    (h : timeEval w a = .rejected r) : r = .outsideWindow := by
  unfold timeEval at h
  split at h
  · exact absurd h (by simp)
  · split at h
    · exact absurd h (by simp)
    · cases h
      rfl

lemma markByFace_below_threshold (cfg : Config) (profiles : List ℕ)
    (auditOk : Bool) (st : SysState) (s : ℕ) (conf : ℚ) (arrival : ℕ)
    (hmem : s ∈ profiles) (hlt : conf < cfg.threshold) :
    (markByFace cfg profiles auditOk st s (some conf) arrival).result
        = .error (.verificationFailed conf) ∧
    (markByFace cfg profiles auditOk st s (some conf) arrival).state.ledger
        = st.ledger := by
  have hd : decideFace cfg.threshold conf cfg.window arrival
      = .rejected (.verificationFailed conf) := by
    rw [decideFace, if_pos hlt]
  simp [markByFace, hmem, hd, rejectErr, writeAudit_ledger]

lemma runCalls_replicate_reject (cfg : Config) (profiles : List ℕ)
    (auditOk : Bool) (s : ℕ) (conf : ℚ) (arrival : ℕ) (n : ℕ)
    (hmem : s ∈ profiles) (hlt : conf < cfg.threshold) :
    ∀ st : SysState,
      (runCalls cfg profiles auditOk st
          (List.replicate n (.face s conf arrival))).1.ledger = st.ledger ∧
      ∀ r ∈ (runCalls cfg profiles auditOk st
          (List.replicate n (.face s conf arrival))).2,
        r = .error (.verificationFailed conf) := by
  induction n with
  | zero =>
      intro st
      simp [runCalls]
  | succ m ih =>
      intro st
      have hone := markByFace_below_threshold cfg profiles auditOk st s conf
        arrival hmem hlt
      have hnext := ih (runCall cfg profiles auditOk st (.face s conf arrival)).state
      simp only [List.replicate_succ, runCalls]
      refine ⟨?_, ?_⟩
      · rw [hnext.1]
        exact hone.2
      · intro r hr
        rcases List.mem_cons.1 hr with hr | hr
        · rw [hr]
          exact hone.1
        · exact hnext.2 r hr

lemma markByFace_emitted_one (cfg : Config) (profiles : List ℕ)
    (auditOk : Bool) (st : SysState) (s : ℕ) (matcher : Option ℚ)
    (arrival : ℕ) :
    (markByFace cfg profiles auditOk st s matcher arrival).emitted.length = 1 := by
  by_cases hmem : s ∈ profiles
  · cases matcher with
    | none => simp [markByFace, hmem]
    | some conf =>
        cases hd : decideFace cfg.threshold conf cfg.window arrival with
        | rejected r => simp [markByFace, hmem, hd]
        | accepted stat =>
            cases hf : findByKey st.ledger ⟨s, cfg.date, cfg.session⟩ with
            | none => simp [markByFace, hmem, hd, commitPhase, commitIfAbsent, hf]
            | some r0 => simp [markByFace, hmem, hd, commitPhase, commitIfAbsent, hf]
  · simp [markByFace, hmem]

lemma markByFace_audit_succ (cfg : Config) (profiles : List ℕ)
    (st : SysState) (s : ℕ) (matcher : Option ℚ) (arrival : ℕ) :
    (markByFace cfg profiles true st s matcher arrival).state.audit.length
        = st.audit.length + 1 := by
  by_cases hmem : s ∈ profiles
  · cases matcher with
    | none => simp [markByFace, hmem, writeAudit]
    | some conf =>
        cases hd : decideFace cfg.threshold conf cfg.window arrival with
        | rejected r => simp [markByFace, hmem, hd, writeAudit]
        | accepted stat =>
            cases hf : findByKey st.ledger ⟨s, cfg.date, cfg.session⟩ with
            | none =>
                simp [markByFace, hmem, hd, commitPhase, commitIfAbsent, hf, writeAudit]
            | some r0 =>
                simp [markByFace, hmem, hd, commitPhase, commitIfAbsent, hf, writeAudit]
  · simp [markByFace, hmem, writeAudit]

lemma markByFace_ledger_shape (cfg : Config) (profiles : List ℕ)
    (auditOk : Bool) (st : SysState) (s : ℕ) (matcher : Option ℚ)
    (arrival : ℕ) :
    (markByFace cfg profiles auditOk st s matcher arrival).state.ledger = st.ledger ∨
    ∃ r : AttendanceRecord,
      (markByFace cfg profiles auditOk st s matcher arrival).state.ledger
        = r :: st.ledger := by
  by_cases hmem : s ∈ profiles
  · cases matcher with
    | none => exact Or.inl (by simp [markByFace, hmem, writeAudit_ledger])
    | some conf =>
        cases hd : decideFace cfg.threshold conf cfg.window arrival with
        | rejected r => exact Or.inl (by simp [markByFace, hmem, hd, writeAudit_ledger])
        | accepted stat =>
            rcases commitPhase_ledger_cases auditOk st true ⟨s, cfg.date, cfg.session⟩
                stat .face (some conf) arrival with h | ⟨h1, _⟩
            · exact Or.inl (by simp only [markByFace, if_pos hmem, hd]; exact h)
            · exact Or.inr ⟨_, by simp only [markByFace, if_pos hmem, hd]; exact h1⟩
  · exact Or.inl (by simp [markByFace, hmem, writeAudit_ledger])

lemma markByFace_error_ledger (cfg : Config) (profiles : List ℕ)
    (auditOk : Bool) (st : SysState) (s : ℕ) (matcher : Option ℚ)
    (arrival : ℕ) (e : MarkError)
    (h : (markByFace cfg profiles auditOk st s matcher arrival).result = .error e) :
    (markByFace cfg profiles auditOk st s matcher arrival).state.ledger
        = st.ledger := by
  by_cases hmem : s ∈ profiles
  · cases matcher with
    | none => simp [markByFace, hmem, writeAudit_ledger]
    | some conf =>
        cases hd : decideFace cfg.threshold conf cfg.window arrival with
        | rejected r => simp [markByFace, hmem, hd, writeAudit_ledger]
        | accepted stat =>
            cases hf : findByKey st.ledger ⟨s, cfg.date, cfg.session⟩ with
            | none =>
                exfalso
                simp [markByFace, hmem, hd, commitPhase, commitIfAbsent, hf] at h
            | some r0 =>
                simp [markByFace, hmem, hd, commitPhase, commitIfAbsent, hf,
                  writeAudit_ledger]
  · simp [markByFace, hmem, writeAudit_ledger]

lemma markByFace_auditOk_irrelevant (cfg : Config) (profiles : List ℕ)
    (st : SysState) (s : ℕ) (matcher : Option ℚ) (arrival : ℕ) :
    (markByFace cfg profiles true st s matcher arrival).state.ledger
        = (markByFace cfg profiles false st s matcher arrival).state.ledger ∧
    (markByFace cfg profiles true st s matcher arrival).result
        = (markByFace cfg profiles false st s matcher arrival).result := by
  by_cases hmem : s ∈ profiles
  · cases matcher with
    | none => simp [markByFace, hmem, writeAudit_ledger]
    | some conf =>
        cases hd : decideFace cfg.threshold conf cfg.window arrival with
        | rejected r => simp [markByFace, hmem, hd, writeAudit_ledger]
        | accepted stat =>
            cases hf : findByKey st.ledger ⟨s, cfg.date, cfg.session⟩ with
            | none =>
                simp [markByFace, hmem, hd, commitPhase, commitIfAbsent, hf,
                  writeAudit_ledger]
            | some r0 =>
                simp [markByFace, hmem, hd, commitPhase, commitIfAbsent, hf,
                  writeAudit_ledger]
  · simp [markByFace, hmem, writeAudit_ledger]

/-- C3: for every marking call that reaches time evaluation (face path
with confidence at or above the threshold, or the manual path, which both
run `timeEval`): arrival at or before session start plus grace yields
present (inclusive boundary); arrival strictly after the grace boundary
and at or before session end yields late (session end inclusive); arrival
strictly after session end yields the Rejected outcome with reason
OutsideWindow.  Stated for configurations whose grace boundary does not
exceed the session end, as the three arrival ranges of the spec partition
time only then. -/
theorem c3_time_window_boundaries (t c : ℚ) (w : SessionWindow) (a : ℕ)
    (hc : t ≤ c) (hw : w.startT + w.grace ≤ w.endT) :
    decideFace t c w a = timeEval w a ∧
    decideManual w a = timeEval w a ∧
    (a ≤ w.startT + w.grace → timeEval w a = .accepted .present) ∧
    (w.startT + w.grace < a → a ≤ w.endT → timeEval w a = .accepted .late) ∧
    (w.endT < a → timeEval w a = .rejected .outsideWindow) := by
  refine ⟨?_, rfl, ?_, ?_, ?_⟩
  · simp [decideFace, not_lt.2 hc]
  · intro h
    rw [timeEval, if_pos h]
  · intro h1 h2
    rw [timeEval, if_neg (by omega), if_pos h2]
  · intro h
    rw [timeEval, if_neg (by omega), if_neg (by omega)]

/-- Witness for c3: session 09:00 to 12:00 in minutes (540 to 720),
grace 10; arrival 550 is present, 551 and 720 are late, 721 is outside the
window; at confidence 91 and threshold 80 the face path reaches the same
time evaluation. -/
theorem c3_time_window_boundaries_witness :
    timeEval ⟨540, 720, 10⟩ 550 = .accepted .present ∧
    timeEval ⟨540, 720, 10⟩ 551 = .accepted .late ∧
    timeEval ⟨540, 720, 10⟩ 720 = .accepted .late ∧
    timeEval ⟨540, 720, 10⟩ 721 = .rejected .outsideWindow ∧
    decideFace 80 91 ⟨540, 720, 10⟩ 550 = timeEval ⟨540, 720, 10⟩ 550 :=
  ⟨(c3_time_window_boundaries 80 91 ⟨540, 720, 10⟩ 550 (by decide) (by decide)).2.2.1 (by decide),
   (c3_time_window_boundaries 80 91 ⟨540, 720, 10⟩ 551 (by decide) (by decide)).2.2.2.1
     (by decide) (by decide),
   (c3_time_window_boundaries 80 91 ⟨540, 720, 10⟩ 720 (by decide) (by decide)).2.2.2.1
     (by decide) (by decide),
   (c3_time_window_boundaries 80 91 ⟨540, 720, 10⟩ 721 (by decide) (by decide)).2.2.2.2
     (by decide),
   (c3_time_window_boundaries 80 91 ⟨540, 720, 10⟩ 550 (by decide) (by decide)).1⟩

/-- C8: the Decision Engine is pure and deterministic — two invocations
with equal inputs produce equal outcomes regardless of the ambient system
state, and an invocation returns the state it was given unchanged. -/
theorem c8_decision_engine_deterministic_pure (st st2 : SysState)
    (i i2 : DecisionInput) (h : i = i2) :
    (decisionEngineSt st i).1 = (decisionEngineSt st2 i2).1 ∧
    (decisionEngineSt st i).2 = st := by
  subst h
  exact ⟨rfl, rfl⟩

/-- Witness for c8: two invocations on equal inputs from different system
states agree and mutate nothing. -/
theorem c8_decision_engine_deterministic_pure_witness :
    (decisionEngineSt ⟨[], []⟩ (.face 80 91 ⟨540, 720, 10⟩ 545)).1
        = (decisionEngineSt ⟨[], [⟨⟨1, 7, "daily"⟩, .face, .matcherFailed, none⟩]⟩
            (.face 80 91 ⟨540, 720, 10⟩ 545)).1 ∧
    (decisionEngineSt ⟨[], []⟩ (.face 80 91 ⟨540, 720, 10⟩ 545)).2 = ⟨[], []⟩ :=
  c8_decision_engine_deterministic_pure ⟨[], []⟩
    ⟨[], [⟨⟨1, 7, "daily"⟩, .face, .matcherFailed, none⟩]⟩
    (.face 80 91 ⟨540, 720, 10⟩ 545) (.face 80 91 ⟨540, 720, 10⟩ 545) rfl

/-- C9: every manual-marking request produced by the student UI carries
the constant payload with session daily and status present, independent of
the current time; in particular the client never requests status late. -/
theorem c9_manual_request_constant (now : ℕ) :
    markManualRequest now = ⟨"daily", "present"⟩ ∧
    (markManualRequest now).status ≠ "late" ∧
    (markManualRequest now).session = markAttendanceSession := by
  refine ⟨rfl, ?_, rfl⟩
  show ("present" : String) ≠ "late"
  decide

/-- Counterexample for C10: an error response that carries the field
`message` with the empty string enables the manual fallback in the code
(JS truthiness treats the empty string as absent), while the claim says a
response carrying any of the three fields with non-matching wording does
not enable it. -/
theorem c10_counterexample :
    showsManualFallback (some ⟨none, none, some ""⟩) = true ∧
    claimFallbackC10 (some ⟨none, none, some ""⟩) = false := by
  decide

/-- C10 (amended): the UI enables the manual fallback exactly when the
first `non_field_errors` message contains one of the two phrases, or when
the error response carries no `non_field_errors` field, no
`face_image_data` field, and no non-empty `message` field (a present but
empty `message` string behaves as absent under the JS truthiness check and
still enables the fallback). -/
theorem c10_fallback_condition (d : Option ErrorData) :
    showsManualFallback d = claimFallbackC10Amended d := by
  cases d with
  | none => rfl
  | some d =>
      obtain ⟨nfe, fid, msg⟩ := d
      cases nfe with
      | some msgs => rfl
      | none =>
          cases fid with
          | some xs => rfl
          | none =>
              cases msg with
              | none => rfl
              | some s =>
                  cases h : s == "" <;>
                    simp [showsManualFallback, claimFallbackC10Amended,
                      truthyArr, truthyStr, h]

/-- C1: for any N ≥ 1 concurrent marking calls, in any mix of face and
manual, targeting the same (student, date, session) key — modelled, via
the atomicity of the Ledger commit-if-absent, as an arbitrary
serialization order of the calls — when every call passes its path's
preconditions and Decision Engine and no record yet exists for the key:
exactly one call commits a record, every other call returns
AlreadyMarkedError, and the Ledger afterwards contains exactly one record
for that key. -/
theorem c1_concurrent_exactly_one_commit
    (cfg : Config) (profiles : List ℕ) (auditOk : Bool) (st : SysState)
    (s : ℕ) (calls : List Call)
    (hne : calls ≠ [])
    (htarget : ∀ c ∈ calls, Call.student c = s)
    (hcommit : ∀ c ∈ calls, wouldCommit cfg profiles c = true)
    (habsent : findByKey st.ledger ⟨s, cfg.date, cfg.session⟩ = none) :
    (runCalls cfg profiles auditOk st calls).2.countP isOkRes = 1 ∧
    (∀ r ∈ (runCalls cfg profiles auditOk st calls).2,
        isOkRes r = false → r = .error .alreadyMarked) ∧
    countKey (runCalls cfg profiles auditOk st calls).1.ledger
      ⟨s, cfg.date, cfg.session⟩ = 1 := by
  cases calls with
  | nil => exact absurd rfl hne
  | cons c cs =>
      have hcs : Call.student c = s := htarget c (by simp)
      obtain ⟨hok, r, hled, hkey⟩ :=
        runCall_commit cfg profiles auditOk st c (hcommit c (by simp))
          (by rw [hcs]; exact habsent)
      have hkey2 : r.key = ⟨s, cfg.date, cfg.session⟩ := by rw [hkey, hcs]
      have hfind : findByKey (runCall cfg profiles auditOk st c).state.ledger
          ⟨s, cfg.date, cfg.session⟩ = some r := by
        rw [hled]
        simp [findByKey, hkey2]
      have hrest := runCalls_all_conflict cfg profiles auditOk s cs r
        (runCall cfg profiles auditOk st c).state
        (fun x hx => htarget x (by simp [hx]))
        (fun x hx => hcommit x (by simp [hx])) hfind
      have hcount1 : countKey (runCall cfg profiles auditOk st c).state.ledger
          ⟨s, cfg.date, cfg.session⟩ = 1 := by
        rw [hled, countKey_cons, if_pos hkey2,
          (findByKey_eq_none_iff _ _).1 habsent]
      refine ⟨?_, ?_, ?_⟩
      · simp only [runCalls, List.countP_cons, hok]
        have hz : (runCalls cfg profiles auditOk
            (runCall cfg profiles auditOk st c).state cs).2.countP isOkRes = 0 :=
          List.countP_eq_zero.2 (fun x hx => by rw [hrest.2 x hx]; simp [isOkRes])
        simp [hz]
      · intro x hx hfalse
        simp only [runCalls, List.mem_cons] at hx
        rcases hx with hx | hx
        · rw [hx, hok] at hfalse
          cases hfalse
        · exact hrest.2 x hx
      · simp only [runCalls]
        exact countKey_runCalls_one cfg profiles auditOk cs
          ⟨s, cfg.date, cfg.session⟩ _ hcount1

/-- Witness for c1: three calls for student 1 on the same day and session
(face at arrival 545 with confidence 91, manual at 551, face at 700 with
confidence 95) against threshold 80 and window 540 to 720 with grace 10:
exactly one commits, the others get AlreadyMarkedError, and the ledger
holds exactly one record for the key. -/
theorem c1_concurrent_exactly_one_commit_witness :
    (runCalls ⟨80, ⟨540, 720, 10⟩, 7, "daily"⟩ [1] true ⟨[], []⟩
        [.face 1 91 545, .manual 1 551, .face 1 95 700]).2.countP isOkRes = 1 ∧
    (∀ r ∈ (runCalls ⟨80, ⟨540, 720, 10⟩, 7, "daily"⟩ [1] true ⟨[], []⟩
        [.face 1 91 545, .manual 1 551, .face 1 95 700]).2,
        isOkRes r = false → r = .error .alreadyMarked) ∧
    countKey (runCalls ⟨80, ⟨540, 720, 10⟩, 7, "daily"⟩ [1] true ⟨[], []⟩
        [.face 1 91 545, .manual 1 551, .face 1 95 700]).1.ledger
      ⟨1, 7, "daily"⟩ = 1 :=
  c1_concurrent_exactly_one_commit ⟨80, ⟨540, 720, 10⟩, 7, "daily"⟩ [1] true
    ⟨[], []⟩ 1 [.face 1 91 545, .manual 1 551, .face 1 95 700]
    (by decide) (by decide) (by decide) (by decide)

/-- C2: at most one AttendanceRecord ever exists for a (student, date,
session) triple.  When a `markByFace` call succeeds (student enrolled,
decision accepted, no prior record for the key), it commits a record for
the key and the store holds exactly one record for it; a second
`markByFace`, or a `markManual`, for the same student, date and session
returns AlreadyMarkedError and the store still holds exactly one record;
and any further sequence of marking calls whatsoever leaves exactly one
record for the key for the lifetime of the system. -/
theorem c2_at_most_one_record (cfg : Config) (profiles : List ℕ)
    (auditOk : Bool) (st : SysState) (s : ℕ) (conf : ℚ) (arrival : ℕ)
    (hmem : s ∈ profiles)
    (hacc : (decideFace cfg.threshold conf cfg.window arrival).isAccepted = true)
    (habsent : findByKey st.ledger ⟨s, cfg.date, cfg.session⟩ = none) :
    (∃ r, (markByFace cfg profiles auditOk st s (some conf) arrival).result
        = .ok r ∧ r.key = ⟨s, cfg.date, cfg.session⟩) ∧
    countKey (markByFace cfg profiles auditOk st s (some conf) arrival).state.ledger
      ⟨s, cfg.date, cfg.session⟩ = 1 ∧
    (∀ (auditOk2 : Bool) (conf2 : ℚ) (arrival2 : ℕ),
      (decideFace cfg.threshold conf2 cfg.window arrival2).isAccepted = true →
      (markByFace cfg profiles auditOk2
          (markByFace cfg profiles auditOk st s (some conf) arrival).state
          s (some conf2) arrival2).result = .error .alreadyMarked ∧
      countKey (markByFace cfg profiles auditOk2
          (markByFace cfg profiles auditOk st s (some conf) arrival).state
          s (some conf2) arrival2).state.ledger ⟨s, cfg.date, cfg.session⟩ = 1) ∧
    (∀ (auditOk2 : Bool) (arrival2 : ℕ),
      (decideManual cfg.window arrival2).isAccepted = true →
      (markManual cfg auditOk2
          (markByFace cfg profiles auditOk st s (some conf) arrival).state
          s arrival2).result = .error .alreadyMarked ∧
      countKey (markManual cfg auditOk2
          (markByFace cfg profiles auditOk st s (some conf) arrival).state
          s arrival2).state.ledger ⟨s, cfg.date, cfg.session⟩ = 1) ∧
    (∀ (auditOk3 : Bool) (calls : List Call),
      countKey (runCalls cfg profiles auditOk3
          (markByFace cfg profiles auditOk st s (some conf) arrival).state
          calls).1.ledger ⟨s, cfg.date, cfg.session⟩ = 1) := by
  obtain ⟨stat, hstat⟩ := (isAccepted_iff _).1 hacc
  have hcp := commitPhase_absent auditOk st true ⟨s, cfg.date, cfg.session⟩
    stat .face (some conf) arrival habsent
  have hresult : (markByFace cfg profiles auditOk st s (some conf) arrival).result
      = .ok ⟨⟨s, cfg.date, cfg.session⟩, stat, .face, some conf, arrival⟩ := by
    simp only [markByFace, if_pos hmem, hstat]
    exact hcp.1
  have hled : (markByFace cfg profiles auditOk st s (some conf) arrival).state.ledger
      = (⟨⟨s, cfg.date, cfg.session⟩, stat, .face, some conf, arrival⟩ :
          AttendanceRecord) :: st.ledger := by
    simp only [markByFace, if_pos hmem, hstat]
    exact hcp.2
  have hcount1 : countKey
      (markByFace cfg profiles auditOk st s (some conf) arrival).state.ledger
      ⟨s, cfg.date, cfg.session⟩ = 1 := by
    rw [hled, countKey_cons, if_pos rfl, (findByKey_eq_none_iff _ _).1 habsent]
  have hfind : findByKey
      (markByFace cfg profiles auditOk st s (some conf) arrival).state.ledger
      ⟨s, cfg.date, cfg.session⟩
      = some ⟨⟨s, cfg.date, cfg.session⟩, stat, .face, some conf, arrival⟩ := by
    rw [hled]
    simp [findByKey]
  refine ⟨⟨_, hresult, rfl⟩, hcount1, ?_, ?_, ?_⟩
  · intro auditOk2 conf2 arrival2 hacc2
    have hconf := runCall_conflict cfg profiles auditOk2
      (markByFace cfg profiles auditOk st s (some conf) arrival).state
      (.face s conf2 arrival2) _
      (by simp [wouldCommit, hmem, hacc2]) (by simpa [Call.student] using hfind)
    simp only [runCall] at hconf
    exact ⟨hconf.1, by rw [hconf.2]; exact hcount1⟩
  · intro auditOk2 arrival2 hacc2
    have hconf := runCall_conflict cfg profiles auditOk2
      (markByFace cfg profiles auditOk st s (some conf) arrival).state
      (.manual s arrival2) _
      (by simp [wouldCommit, hacc2]) (by simpa [Call.student] using hfind)
    simp only [runCall] at hconf
    exact ⟨hconf.1, by rw [hconf.2]; exact hcount1⟩
  · intro auditOk3 calls
    exact countKey_runCalls_one cfg profiles auditOk3 calls
      ⟨s, cfg.date, cfg.session⟩ _ hcount1

/-- Witness for c2: after a successful face marking for student 1 at
arrival 545 with confidence 91, a second face attempt (confidence 95,
arrival 600) and a manual attempt (arrival 600) both return
AlreadyMarkedError and the ledger still holds exactly one record for the
key. -/
theorem c2_at_most_one_record_witness :
    (∃ r, (markByFace ⟨80, ⟨540, 720, 10⟩, 7, "daily"⟩ [1] true ⟨[], []⟩
        1 (some 91) 545).result = .ok r ∧ r.key = ⟨1, 7, "daily"⟩) ∧
    (markByFace ⟨80, ⟨540, 720, 10⟩, 7, "daily"⟩ [1] true
        (markByFace ⟨80, ⟨540, 720, 10⟩, 7, "daily"⟩ [1] true ⟨[], []⟩
          1 (some 91) 545).state 1 (some 95) 600).result
      = .error .alreadyMarked ∧
    (markManual ⟨80, ⟨540, 720, 10⟩, 7, "daily"⟩ true
        (markByFace ⟨80, ⟨540, 720, 10⟩, 7, "daily"⟩ [1] true ⟨[], []⟩
          1 (some 91) 545).state 1 600).result = .error .alreadyMarked ∧
    countKey (markByFace ⟨80, ⟨540, 720, 10⟩, 7, "daily"⟩ [1] true ⟨[], []⟩
        1 (some 91) 545).state.ledger ⟨1, 7, "daily"⟩ = 1 :=
  ⟨(c2_at_most_one_record ⟨80, ⟨540, 720, 10⟩, 7, "daily"⟩ [1] true ⟨[], []⟩
      1 91 545 (by decide) (by decide) (by decide)).1,
   ((c2_at_most_one_record ⟨80, ⟨540, 720, 10⟩, 7, "daily"⟩ [1] true ⟨[], []⟩
      1 91 545 (by decide) (by decide) (by decide)).2.2.1 true 95 600 (by decide)).1,
   ((c2_at_most_one_record ⟨80, ⟨540, 720, 10⟩, 7, "daily"⟩ [1] true ⟨[], []⟩
      1 91 545 (by decide) (by decide) (by decide)).2.2.2.1 true 600 (by decide)).1,
   (c2_at_most_one_record ⟨80, ⟨540, 720, 10⟩, 7, "daily"⟩ [1] true ⟨[], []⟩
      1 91 545 (by decide) (by decide) (by decide)).2.1⟩

/-- C4: a `markByFace` call whose matcher confidence is strictly below the
threshold creates no AttendanceRecord and returns the VerificationFailed
rejection carrying the exact confidence value; repeating the
below-threshold call any number of times still creates no record and each
repetition returns the same rejection. -/
theorem c4_below_threshold_rejected (cfg : Config) (profiles : List ℕ)
    (auditOk : Bool) (st : SysState) (s : ℕ) (conf : ℚ) (arrival : ℕ)
    (n : ℕ) (hmem : s ∈ profiles) (hlt : conf < cfg.threshold) :
    (markByFace cfg profiles auditOk st s (some conf) arrival).result
        = .error (.verificationFailed conf) ∧
    (markByFace cfg profiles auditOk st s (some conf) arrival).state.ledger
        = st.ledger ∧
    (runCalls cfg profiles auditOk st
        (List.replicate n (.face s conf arrival))).1.ledger = st.ledger ∧
    (∀ r ∈ (runCalls cfg profiles auditOk st
        (List.replicate n (.face s conf arrival))).2,
      r = .error (.verificationFailed conf)) := by
  have hone := markByFace_below_threshold cfg profiles auditOk st s conf
    arrival hmem hlt
  have hrep := runCalls_replicate_reject cfg profiles auditOk s conf arrival n
    hmem hlt st
  exact ⟨hone.1, hone.2, hrep.1, hrep.2⟩

/-- Witness for c4: scenario A of the spec scaled to integer percents —
threshold 80, confidence 52: the call returns VerificationFailed carrying
52 and three repetitions leave the ledger empty. -/
theorem c4_below_threshold_rejected_witness :
    (markByFace ⟨80, ⟨540, 720, 10⟩, 7, "daily"⟩ [1] true ⟨[], []⟩
        1 (some 52) 545).result = .error (.verificationFailed 52) ∧
    (runCalls ⟨80, ⟨540, 720, 10⟩, 7, "daily"⟩ [1] true ⟨[], []⟩
        (List.replicate 3 (.face 1 52 545))).1.ledger = [] :=
  ⟨(c4_below_threshold_rejected ⟨80, ⟨540, 720, 10⟩, 7, "daily"⟩ [1] true
      ⟨[], []⟩ 1 52 545 3 (by decide) (by decide)).1,
   (c4_below_threshold_rejected ⟨80, ⟨540, 720, 10⟩, 7, "daily"⟩ [1] true
      ⟨[], []⟩ 1 52 545 3 (by decide) (by decide)).2.2.1⟩

/-- C5: every `markByFace` call emits exactly one AuditEntry (and, when
the audit sink succeeds, the audit log grows by exactly one entry) and
performs at most one Ledger write; on every error outcome, including every
Rejected decision, the attendance store is unchanged; and a failed audit
write changes neither the Ledger outcome nor the returned result, so it
never reverses a commit. -/
theorem c5_one_audit_at_most_one_write (cfg : Config) (profiles : List ℕ)
    (auditOk : Bool) (st : SysState) (s : ℕ) (matcher : Option ℚ)
    (arrival : ℕ) :
    (markByFace cfg profiles auditOk st s matcher arrival).emitted.length = 1 ∧
    (markByFace cfg profiles true st s matcher arrival).state.audit.length
        = st.audit.length + 1 ∧
    ((markByFace cfg profiles auditOk st s matcher arrival).state.ledger
          = st.ledger ∨
      ∃ r : AttendanceRecord,
        (markByFace cfg profiles auditOk st s matcher arrival).state.ledger
          = r :: st.ledger) ∧
    (∀ e, (markByFace cfg profiles auditOk st s matcher arrival).result
          = .error e →
      (markByFace cfg profiles auditOk st s matcher arrival).state.ledger
          = st.ledger) ∧
    (markByFace cfg profiles true st s matcher arrival).state.ledger
        = (markByFace cfg profiles false st s matcher arrival).state.ledger ∧
    (markByFace cfg profiles true st s matcher arrival).result
        = (markByFace cfg profiles false st s matcher arrival).result :=
  ⟨markByFace_emitted_one cfg profiles auditOk st s matcher arrival,
   markByFace_audit_succ cfg profiles st s matcher arrival,
   markByFace_ledger_shape cfg profiles auditOk st s matcher arrival,
   fun e he => markByFace_error_ledger cfg profiles auditOk st s matcher arrival e he,
   (markByFace_auditOk_irrelevant cfg profiles st s matcher arrival).1,
   (markByFace_auditOk_irrelevant cfg profiles st s matcher arrival).2⟩

/-- Witness for c5: a rejected face attempt (confidence 52, threshold 80)
emits exactly one audit entry, grows the audit log by one, and leaves the
ledger empty. -/
theorem c5_one_audit_at_most_one_write_witness :
    (markByFace ⟨80, ⟨540, 720, 10⟩, 7, "daily"⟩ [1] true ⟨[], []⟩
        1 (some 52) 545).emitted.length = 1 ∧
    (markByFace ⟨80, ⟨540, 720, 10⟩, 7, "daily"⟩ [1] true ⟨[], []⟩
        1 (some 52) 545).state.audit.length = 1 ∧
    (markByFace ⟨80, ⟨540, 720, 10⟩, 7, "daily"⟩ [1] true ⟨[], []⟩
        1 (some 52) 545).state.ledger = [] :=
  ⟨(c5_one_audit_at_most_one_write ⟨80, ⟨540, 720, 10⟩, 7, "daily"⟩ [1] true
      ⟨[], []⟩ 1 (some 52) 545).1,
   (c5_one_audit_at_most_one_write ⟨80, ⟨540, 720, 10⟩, 7, "daily"⟩ [1] true
      ⟨[], []⟩ 1 (some 52) 545).2.1,
   (c5_one_audit_at_most_one_write ⟨80, ⟨540, 720, 10⟩, 7, "daily"⟩ [1] true
      ⟨[], []⟩ 1 (some 52) 545).2.2.2.1 (.verificationFailed 52) (by decide)⟩

/-- C6: `markManual` performs the same time evaluation as the face path
with no confidence check; a committed manual record's status is exactly
the status the time evaluation assigns (present or late only, never a
confidence rejection), and the only possible failures are
OutsideWindowError and AlreadyMarkedError. -/
theorem c6_manual_same_time_evaluation (cfg : Config) (auditOk : Bool)
    (st : SysState) (s a : ℕ) :
    (∀ t c : ℚ, t ≤ c → decideFace t c cfg.window a = decideManual cfg.window a) ∧
    (∀ r, (markManual cfg auditOk st s a).result = .ok r →
      r.method = .manual ∧ r.confidence = none ∧
      (r.status = .present ∨ r.status = .late) ∧
      decideManual cfg.window a = .accepted r.status) ∧
    (∀ e, (markManual cfg auditOk st s a).result = .error e →
      e = .outsideWindow ∨ e = .alreadyMarked) := by
  refine ⟨?_, ?_, ?_⟩
  · intro t c h
    simp [decideFace, decideManual, not_lt.2 h]
  · intro r hr
    cases hd : decideManual cfg.window a with
    | rejected rr =>
        have hres : (markManual cfg auditOk st s a).result
            = .error (rejectErr rr) := by
          simp only [markManual, hd]
        rw [hres] at hr
        cases hr
    | accepted stat =>
        have hres : (markManual cfg auditOk st s a).result
            = (commitPhase auditOk st false ⟨s, cfg.date, cfg.session⟩
                stat .manual none a).result := by
          simp only [markManual, hd]
        rw [hres] at hr
        cases hf : findByKey st.ledger ⟨s, cfg.date, cfg.session⟩ with
        | none =>
            have hcp := commitPhase_absent auditOk st false
              ⟨s, cfg.date, cfg.session⟩ stat .manual none a hf
            rw [hcp.1] at hr
            injection hr with hinj
            subst hinj
            refine ⟨rfl, rfl, ?_, rfl⟩
            cases stat
            · exact Or.inl rfl
            · exact Or.inr rfl
        | some r0 =>
            have hcp := commitPhase_present auditOk st false
              ⟨s, cfg.date, cfg.session⟩ stat .manual none a r0 hf
            rw [hcp.1] at hr
            cases hr
  · intro e he
    cases hd : decideManual cfg.window a with
    | rejected rr =>
        have hrr : rr = .outsideWindow := timeEval_rejected_eq cfg.window a rr hd
        have hres : (markManual cfg auditOk st s a).result
            = .error (rejectErr rr) := by
          simp only [markManual, hd]
        rw [hres, hrr] at he
        injection he with hinj
        exact Or.inl hinj.symm
    | accepted stat =>
        have hres : (markManual cfg auditOk st s a).result
            = (commitPhase auditOk st false ⟨s, cfg.date, cfg.session⟩
                stat .manual none a).result := by
          simp only [markManual, hd]
        rw [hres] at he
        cases hf : findByKey st.ledger ⟨s, cfg.date, cfg.session⟩ with
        | none =>
            have hcp := commitPhase_absent auditOk st false
              ⟨s, cfg.date, cfg.session⟩ stat .manual none a hf
            rw [hcp.1] at he
            cases he
        | some r0 =>
            have hcp := commitPhase_present auditOk st false
              ⟨s, cfg.date, cfg.session⟩ stat .manual none a r0 hf
            rw [hcp.1] at he
            injection he with hinj
            exact Or.inr hinj.symm

/-- Witness for c6: a manual call at arrival 551 (inside the window, past
the grace boundary) commits a late manual record with no confidence, and
the face path at or above threshold agrees with the manual decision. -/
theorem c6_manual_same_time_evaluation_witness :
    decideFace 80 91 ⟨540, 720, 10⟩ 551 = decideManual ⟨540, 720, 10⟩ 551 ∧
    ((⟨⟨1, 7, "daily"⟩, .late, .manual, none, 551⟩ : AttendanceRecord).method
        = .manual ∧
     (⟨⟨1, 7, "daily"⟩, .late, .manual, none, 551⟩ : AttendanceRecord).confidence
        = none ∧
     ((⟨⟨1, 7, "daily"⟩, .late, .manual, none, 551⟩ : AttendanceRecord).status
          = .present ∨
      (⟨⟨1, 7, "daily"⟩, .late, .manual, none, 551⟩ : AttendanceRecord).status
          = .late) ∧
     decideManual ⟨540, 720, 10⟩ 551
        = .accepted (⟨⟨1, 7, "daily"⟩, .late, .manual, none, 551⟩ :
            AttendanceRecord).status) :=
  ⟨(c6_manual_same_time_evaluation ⟨80, ⟨540, 720, 10⟩, 7, "daily"⟩ true
      ⟨[], []⟩ 1 551).1 80 91 (by decide),
   (c6_manual_same_time_evaluation ⟨80, ⟨540, 720, 10⟩, 7, "daily"⟩ true
      ⟨[], []⟩ 1 551).2.1 ⟨⟨1, 7, "daily"⟩, .late, .manual, none, 551⟩
      (by decide)⟩

/-- C7: a student with no StudentFaceProfile gets the distinct
NotEnrolledError from `markByFace` — never a low-confidence rejection —
and the matcher is not invoked; `markManual` for the same student still
succeeds, as the manual path does not require enrollment. -/
theorem c7_not_enrolled_distinct (cfg : Config) (profiles : List ℕ)
    (auditOk : Bool) (st : SysState) (s : ℕ) (matcher : Option ℚ)
    (arrival : ℕ)
    (hnot : s ∉ profiles)
    (hacc : (decideManual cfg.window arrival).isAccepted = true)
    (habsent : findByKey st.ledger ⟨s, cfg.date, cfg.session⟩ = none) :
    (markByFace cfg profiles auditOk st s matcher arrival).result
        = .error .notEnrolled ∧
    (markByFace cfg profiles auditOk st s matcher arrival).matcherInvoked
        = false ∧
    ∃ r, (markManual cfg auditOk st s arrival).result = .ok r ∧
      r.method = .manual := by
  obtain ⟨stat, hstat⟩ := (isAccepted_iff _).1 hacc
  have hcp := commitPhase_absent auditOk st false ⟨s, cfg.date, cfg.session⟩
    stat .manual none arrival habsent
  refine ⟨by simp [markByFace, hnot], by simp [markByFace, hnot], ?_⟩
  refine ⟨⟨⟨s, cfg.date, cfg.session⟩, stat, .manual, none, arrival⟩, ?_, rfl⟩
  simp only [markManual, decideManual] at hstat ⊢
  rw [hstat]
  exact hcp.1

/-- Witness for c7: student 2 is not enrolled (profiles hold only student
1): the face path fails with NotEnrolledError without invoking the
matcher, while the manual path commits a record for student 2. -/
theorem c7_not_enrolled_distinct_witness :
    (markByFace ⟨80, ⟨540, 720, 10⟩, 7, "daily"⟩ [1] true ⟨[], []⟩
        2 (some 91) 545).result = .error .notEnrolled ∧
    (markByFace ⟨80, ⟨540, 720, 10⟩, 7, "daily"⟩ [1] true ⟨[], []⟩
        2 (some 91) 545).matcherInvoked = false ∧
    ∃ r, (markManual ⟨80, ⟨540, 720, 10⟩, 7, "daily"⟩ true ⟨[], []⟩
        2 545).result = .ok r ∧ r.method = .manual :=
  c7_not_enrolled_distinct ⟨80, ⟨540, 720, 10⟩, 7, "daily"⟩ [1] true ⟨[], []⟩
    2 (some 91) 545 (by decide) (by decide) (by decide)

end FaceAttendance
